import Mathlib

/-!
Verification development for the oakCameraDGPSLogger repository.

The Python source (src/main.py, src/storage_manager.py, src/gps_manager.py,
src/ui_manager.py) is shallowly embedded below:

* GPS fixes carry many fields; only `latitude`/`longitude` are read by the
  motion filter and the haversine distance, so `Coords` keeps those two,
  as exact rationals standing for the Python floats.
* The on-disk state is modelled as an association list from structured
  file paths to file contents, newest entry first.  The date directory
  prefix (`base_path/YYYYMMDD/`) is common to every file of one call and
  is elided from the path model; a path is the triple
  (frame type, timestamp string, extension), which is exactly the data
  the source concatenates into `f"{frame_type}_{timestamp}"` plus the
  chosen extension.  The timestamp format `%Y%m%d_%H%M%S_%f` contains no
  dot, so `filepath.rsplit('.', 1)[0] + '.json'` is precisely "replace
  the extension by json", which is how `jsonOf` is defined.
* JSON metadata records carry more fields than the claims mention; the
  model keeps the ones the claims are about: the capture type, the GPS
  fix (or its absence, the `{"gps": "disabled"}` marker), and the two
  image-quality parameters.  Image files record the encoder quality
  parameter that `cv2.imwrite` was called with.
* `save_metadata` can raise on I/O failure (`open`/`json.dump`); this is
  the `metaFails` oracle, keyed by the json path.  `cv2.imwrite` does not
  raise on I/O failure, so image writes always succeed in the model.
* Real-valued trigonometry (the haversine distance) is embedded over `ℝ`
  and is the only noncomputable part; all policy logic is executable.
-/

namespace OakLogger

/-- A GPS fix as far as the modelled logic reads it: decimal-degree
latitude and longitude (Python floats, embedded as exact rationals). -/
structure Coords where
  latitude : ℚ
  longitude : ℚ
deriving DecidableEq, Repr

/-- The `interval_type` field of `MainApplication`: `"time"` or `"distance"`. -/
inductive IntervalType where
  | time
  | distance
deriving DecidableEq, Repr

/-- Image buffers are opaque to the persistence logic; only presence matters. -/
abbrev Frame := Unit

/-- File extensions produced by `StorageManager`. -/
inductive FileExt where
  | png
  | jpg
  | json
deriving DecidableEq, Repr

/-- A structured on-disk path: `save_frame` builds
`f"{frame_type}_{timestamp}"` plus an extension inside the current date
directory; with one fixed timestamp per call, the triple below carries
exactly the distinguishing data of that string. -/
structure SPath where
  frameType : String
  ts : String
  ext : FileExt
deriving DecidableEq, Repr

/-- Contents of an on-disk file, restricted to the observables the claims
are about: an image file records the encoder quality parameter passed to
`cv2.imwrite`; a json metadata file records the capture type, the fix (or
`none` for the `{"gps": "disabled"}` marker), and the two quality
parameters embedded by `save_metadata`. -/
inductive FileContent where
  | image (encodeParam : ℤ)
  | json (captureType : String) (gps : Option Coords) (jpegQuality : ℤ) (pngCompression : ℤ)
deriving DecidableEq, Repr

/-- The file system: an association list from paths to contents, newest
entry first. -/
abbrev FS := List (SPath × FileContent)

/-- Write a file (create or overwrite; lookups see the newest entry). -/
def fsWrite (fs : FS) (p : SPath) (c : FileContent) : FS :=
  (p, c) :: fs

/-- Model of `os.path.exists`. -/
def fsExists (fs : FS) (p : SPath) : Bool :=
  fs.any (fun e => decide (e.1 = p))

/-- Model of `os.remove`: drop every entry stored at the path. -/
def fsRemove (fs : FS) (p : SPath) : FS :=
  fs.filter (fun e => !(decide (e.1 = p)))

/-- The mutable `StorageManager` state read by the persistence claims:
the two image-quality parameters (Python ints).  `base_path` and the
derived date directory are elided (see the module comment). -/
structure StorageManager where
  jpeg_quality : ℤ
  png_compression : ℤ
deriving DecidableEq, Repr

/-- Model of `StorageManager.set_image_quality`: clamp `jpeg_quality` with
`max(0, min(100, ·))` and `png_compression` with `max(0, min(9, ·))`. -/
def set_image_quality (sm : StorageManager) (jpeg_quality : ℤ) (png_compression : ℤ) :
    StorageManager :=
  { sm with
    jpeg_quality := max 0 (min 100 jpeg_quality)
    png_compression := max 0 (min 9 png_compression) }

/-- Extension chosen by `save_frame`: 16-bit `depth_raw` and colorized
`depth` go to PNG, everything else to JPEG. -/
def ext_of (frame_type : String) : FileExt :=
  if frame_type = "depth_raw" then FileExt.png
  else if frame_type = "depth" then FileExt.png
  else FileExt.jpg

/-- Encoder quality parameter `save_frame` passes to `cv2.imwrite`:
`IMWRITE_PNG_COMPRESSION = png_compression` for the PNG branches,
`IMWRITE_JPEG_QUALITY = jpeg_quality` otherwise. -/
def encodeParam (sm : StorageManager) (frame_type : String) : ℤ :=
  if frame_type = "depth_raw" then sm.png_compression
  else if frame_type = "depth" then sm.png_compression
  else sm.jpeg_quality

/-- The image path `save_frame` writes for a frame type and timestamp. -/
def imgPath (frame_type : String) (ts : String) : SPath :=
  ⟨frame_type, ts, ext_of frame_type⟩

/-- Model of `filepath.rsplit('.', 1)[0] + '.json'`: replace the extension
(timestamps contain no dot, so `rsplit` strips exactly the extension). -/
def jsonOf (p : SPath) : SPath :=
  { p with ext := FileExt.json }

/-- Model of `StorageManager.save_frame`: write the image file (with the quality
parameter for its encoder) and return the path.  The `None`/type checks
at its top are unreachable from `save_frames_with_metadata`, which only
passes non-`None` frames. -/
def save_frame (sm : StorageManager) (frame_type : String) (ts : String) (fs : FS) :
    FS × SPath :=
  let p := imgPath frame_type ts
  (fsWrite fs p (FileContent.image (encodeParam sm frame_type)), p)

/-- The metadata fields the model tracks out of the enhanced record built
by `save_frames_with_metadata` (capture type and the fix-or-disabled
marker); `save_metadata` adds the image-quality parameters on top. -/
structure MetaIn where
  gps : Option Coords
  capture_type : String
deriving DecidableEq, Repr

/-- Model of `StorageManager.save_metadata`: write the json sibling of the image
path, or fail (the `open`/`json.dump` I/O error), per the oracle. -/
def save_metadata (sm : StorageManager) (em : MetaIn) (p : SPath) (fs : FS)
    (metaFails : SPath → Bool) : Option FS :=
  let jp := jsonOf p
  if metaFails jp then none
  else some (fsWrite fs jp (FileContent.json em.capture_type em.gps sm.jpeg_quality sm.png_compression))

/-- One iteration of the exception handler's cleanup loop in
`save_frames_with_metadata`: `os.remove(fp)`, then remove the json
sibling if it exists. -/
def cleanup_one (fs : FS) (fp : SPath) : FS :=
  if fsExists (fsRemove fs fp) (jsonOf fp) then fsRemove (fsRemove fs fp) (jsonOf fp)
  else fsRemove fs fp

/-- The exception handler's cleanup loop: remove each previously recorded
saved file and its metadata sibling. -/
def cleanup (fs : FS) : List SPath → FS
  | [] => fs
  | fp :: rest => cleanup (cleanup_one fs fp) rest

/-- The `for frame_type, frame in frames.items()` loop of
`save_frames_with_metadata`, with the accumulated `saved_files` list.
`None` frames are skipped with a warning; on a metadata failure the
exception handler removes the files recorded in `saved_files` (the image
whose metadata write failed was not yet appended) and re-raises. -/
def sfwm_go (sm : StorageManager) (metaFails : SPath → Bool) (em : MetaIn) (ts : String) :
    List (String × Option Frame) → FS → List SPath → FS × Except Unit (List SPath)
  | [], fs, saved => (fs, Except.ok saved)
  | (_, none) :: rest, fs, saved => sfwm_go sm metaFails em ts rest fs saved
  | (ft, some _) :: rest, fs, saved =>
      let r := save_frame sm ft ts fs
      match save_metadata sm em r.2 r.1 metaFails with
      | none => (cleanup r.1 saved, Except.error ())
      | some fs2 => sfwm_go sm metaFails em ts rest fs2 (saved ++ [r.2])

/-- Model of `StorageManager.save_frames_with_metadata`: enhanced metadata is the
caller's fix-or-disabled marker plus the capture type; run the save loop
with an empty `saved_files` accumulator.  Returns the final disk state
and either the saved paths or the propagated exception. -/
def save_frames_with_metadata (sm : StorageManager) (metaFails : SPath → Bool)
    (frames : List (String × Option Frame)) (gps : Option Coords) (ts : String)
    (capture_type : String) (fs : FS) : FS × Except Unit (List SPath) :=
  sfwm_go sm metaFails ⟨gps, capture_type⟩ ts frames fs []

/-- The fixed angular threshold `self.gps_threshold = 0.0001` of the
motion filter (decimal degrees, roughly 11 metres). -/
def gps_threshold : ℚ := 1 / 10000

/-- Model of `MainApplication.check_motion`: given the stored `last_gps_coords`
and the current fix, return the new `last_gps_coords` together with the
moving/stationary verdict.  If either fix is falsy the stored baseline is
assigned the current fix and the filter fails open (`True`); otherwise it
compares both absolute axis deltas against the threshold and adopts the
current fix as the new baseline only when motion is detected.  (The
`KeyError`/`ValueError` fallback is unreachable here: the fix fields are
total in the model.) -/
def check_motion (last : Option Coords) (current : Option Coords) : Option Coords × Bool :=
  match last, current with
  | none, c => (c, true)
  | some _, none => (none, true)
  | some prev, some cur =>
      let lat_diff := |cur.latitude - prev.latitude|
      let lon_diff := |cur.longitude - prev.longitude|
      let is_moving := decide (lat_diff > gps_threshold) || decide (lon_diff > gps_threshold)
      (if is_moving then some cur else some prev, is_moving)

/-- Model of `math.radians`: degrees to radians. -/
noncomputable def radians (d : ℝ) : ℝ := d * Real.pi / 180

/-- Model of `math.atan2 y x`, case by case as the C library defines it (the
haversine only ever reaches the `x > 0` and `x = 0, y ≥ 0` cases). -/
noncomputable def atan2 (y x : ℝ) : ℝ :=
  if 0 < x then Real.arctan (y / x)
  else if x < 0 ∧ 0 ≤ y then Real.arctan (y / x) + Real.pi
  else if x < 0 ∧ y < 0 then Real.arctan (y / x) - Real.pi
  else if 0 < y then Real.pi / 2
  else if y < 0 then -(Real.pi / 2)
  else 0

/-- Model of `GPSManager.calculate_distance`: the haversine great-circle distance
in metres with Earth radius `R = 6371000`. -/
noncomputable def calculate_distance (coord1 coord2 : Coords) : ℝ :=
  let R : ℝ := 6371000
  let lat1 := radians (coord1.latitude : ℝ)
  let lon1 := radians (coord1.longitude : ℝ)
  let lat2 := radians (coord2.latitude : ℝ)
  let lon2 := radians (coord2.longitude : ℝ)
  let dlat := lat2 - lat1
  let dlon := lon2 - lon1
  let a := Real.sin (dlat / 2) ^ 2 +
    Real.cos lat1 * Real.cos lat2 * Real.sin (dlon / 2) ^ 2
  let c := 2 * atan2 (Real.sqrt a) (Real.sqrt (1 - a))
  R * c

/-- Model of `GPSManager.get_distance_moved`: returns the updated `last_position`,
the distance moved, and the current fix.  When either the current fix or
the stored `last_position` is falsy, `last_position` is assigned the
current fix and the distance is `0`. -/
noncomputable def get_distance_moved (last_position : Option Coords) (current : Option Coords) :
    Option Coords × ℝ × Option Coords :=
  match current, last_position with
  | none, _ => (none, 0, none)
  | some c, none => (some c, 0, some c)
  | some c, some lp => (some lp, calculate_distance lp c, some c)

/-- The distance-mode trigger evaluation at the top of `_save_loop`:
query `get_distance_moved`, trigger when the distance reaches
`interval_value`, and on a trigger assign `gps.last_position = coords`
immediately.  Returns the resulting `last_position` and `should_capture`. -/
noncomputable def distance_trigger (last_position : Option Coords) (current : Option Coords)
    (interval_value : ℚ) : Option Coords × Bool :=
  let r := get_distance_moved last_position current
  if r.2.1 ≥ (interval_value : ℝ) then (r.2.2, true) else (r.1, false)

/-- The `MainApplication` fields the capture-policy claims are about.
`has_gps` is whether `self.gps` is not `None`; `gps_last_position` is the
`GPSManager.last_position` baseline of distance mode. -/
structure AppState where
  interval_type : IntervalType
  interval_value : ℚ
  last_save_time : ℚ
  last_gps_coords : Option Coords
  has_gps : Bool
  gps_last_position : Option Coords
deriving DecidableEq, Repr

/-- Per-tick environment: the wall clock, the fix the GPS thread has
published (`gps.current_coords`), the frames the snapshot phase would
gather, the save timestamp, and the metadata-write failure oracle. -/
structure TickEnv where
  current_time : ℚ
  coords : Option Coords
  frames : List (String × Option Frame)
  ts : String
  metaFails : SPath → Bool

/-- The capture section at the bottom of the `_save_loop` tick: when
triggered and at least one frame was gathered, persist via
`save_frames_with_metadata` with capture type `"auto"`; only on a
successful save update `last_save_time` to the tick's `current_time`.
Returns the new state, the disk state, and the save-success flag. -/
def capture_phase (sm : StorageManager) (st : AppState) (env : TickEnv)
    (coords : Option Coords) (should_capture : Bool) (fs : FS) : AppState × FS × Bool :=
  if should_capture = true ∧ env.frames ≠ [] then
    let r := save_frames_with_metadata sm env.metaFails env.frames coords env.ts "auto" fs
    match r.2 with
    | Except.ok _ => ({ st with last_save_time := env.current_time }, r.1, true)
    | Except.error _ => (st, r.1, false)
  else (st, fs, false)

/-- One tick of `MainApplication._save_loop`: evaluate the trigger
(distance mode through `distance_trigger`, time mode by elapsed wall
clock; without GPS only time mode can trigger and `coords` stays `None`),
then the motion gate (`if coords and not self.check_motion(coords):
continue`), then the capture section. -/
noncomputable def save_loop_tick (sm : StorageManager) (st : AppState) (env : TickEnv)
    (fs : FS) : AppState × FS × Bool :=
  let tr : Option Coords × Bool × Option Coords :=
    if st.has_gps = true then
      if st.interval_type = IntervalType.distance then
        let dt := distance_trigger st.gps_last_position env.coords st.interval_value
        (dt.1, dt.2, env.coords)
      else
        (st.gps_last_position,
          decide (env.current_time - st.last_save_time ≥ st.interval_value), env.coords)
    else
      (st.gps_last_position,
        decide (st.interval_type = IntervalType.time) &&
          decide (env.current_time - st.last_save_time ≥ st.interval_value), none)
  let st1 : AppState := { st with gps_last_position := tr.1 }
  match tr.2.2 with
  | some c =>
      let cm := check_motion st1.last_gps_coords (some c)
      let st2 : AppState := { st1 with last_gps_coords := cm.1 }
      if cm.2 = true then capture_phase sm st2 env (some c) tr.2.1 fs
      else (st2, fs, false)
  | none => capture_phase sm st1 env none tr.2.1 fs

/-- Environment of one `manual_capture` invocation: the frames gathered
from the camera queues, the published fix, the timestamp and the
metadata failure oracle. -/
structure ManualEnv where
  frames : List (String × Option Frame)
  coords : Option Coords
  ts : String
  metaFails : SPath → Bool

/-- Model of `MainApplication.manual_capture`: when running, snapshot the frames,
read the fix if GPS is enabled, and persist with capture type
`"manual"`; any exception is caught and logged.  No policy-state field is
assigned anywhere in the handler, so the application state is returned
unchanged. -/
def manual_capture (sm : StorageManager) (st : AppState) (running : Bool)
    (env : ManualEnv) (fs : FS) : AppState × FS :=
  if running = true then
    let coords := if st.has_gps = true then env.coords else none
    let r := save_frames_with_metadata sm env.metaFails env.frames coords env.ts "manual" fs
    (st, r.1)
  else (st, fs)

/-- The interval validation in `UIManager._toggle_camera_and_recording`,
run before `start_callback` starts the system: values below `1` raise
`ValueError`, everything else is passed through to `start_system`. -/
def validate_interval_settings (value : ℚ) : Except String ℚ :=
  if value < 1 then Except.error "Interval must be at least 1 second"
  else Except.ok value

/-! Concrete inputs used by witnesses and counterexamples. -/

/-- The fix at latitude 0, longitude 0. -/
def c00 : Coords := ⟨0, 0⟩

/-- The fix at latitude 0, longitude 1 degree. -/
def c01 : Coords := ⟨0, 1⟩

/-- A storage manager at the constructor defaults (`jpeg_quality = 100`,
`png_compression = 0`). -/
def smD : StorageManager := ⟨100, 0⟩

/-- A metadata-failure oracle that fails every json write. -/
def failAllJson : SPath → Bool := fun p => decide (p.ext = FileExt.json)

/-- A metadata-failure oracle that fails only the `depth` json write. -/
def failDepthJson : SPath → Bool :=
  fun p => decide (p.ext = FileExt.json ∧ p.frameType = "depth")

/-- A metadata-failure oracle that never fails. -/
def noFail : SPath → Bool := fun _ => false

/-- A snapshot with one populated `rgb` stream. -/
def frames1 : List (String × Option Frame) := [("rgb", some ())]

/-- Distance mode, 30 m threshold, with a distance baseline at `c00` and
no motion baseline yet. -/
def stC2 : AppState := ⟨IntervalType.distance, 30, 0, none, true, some c00⟩

/-- A tick at `t = 100` with the fix at `c01`, one `rgb` frame, and every
metadata write failing. -/
def envC2 : TickEnv := ⟨100, some c01, frames1, "t0", failAllJson⟩

/-- Distance mode with the motion baseline already at the current fix
(`c01`) and the distance baseline still at `c00`. -/
def stC4 : AppState := ⟨IntervalType.distance, 30, 0, some c01, true, some c00⟩

/-- Distance mode with no distance baseline stored. -/
def stC2N : AppState := ⟨IntervalType.distance, 30, 0, none, true, none⟩

/-- Time mode, GPS on, motion baseline at `c01`, distance baseline at `c00`. -/
def stC4W : AppState := ⟨IntervalType.time, 30, 0, some c01, true, some c00⟩

/-- Time mode without GPS. -/
def stT : AppState := ⟨IntervalType.time, 30, 0, none, false, none⟩

/-- A tick at `t = 100` with no fix, one `rgb` frame, and reliable
metadata writes. -/
def envT : TickEnv := ⟨100, none, frames1, "t2", noFail⟩

/-- A different policy state with the same GPS availability as `stT`. -/
def stMan2 : AppState := ⟨IntervalType.distance, 99, 77, some c00, false, some c01⟩

/-- A manual capture with one `rgb` frame and reliable metadata writes. -/
def envMan : ManualEnv := ⟨frames1, none, "t1", noFail⟩

/-! Helper lemmas about the file-system model. -/

theorem bool_eq_iff {a b : Bool} : a = b ↔ (a = true ↔ b = true) := by
  cases a <;> cases b <;> simp

theorem fsExists_iff {fs : FS} {p : SPath} :
    fsExists fs p = true ↔ ∃ c, (p, c) ∈ fs := by
  simp only [fsExists, List.any_eq_true, decide_eq_true_eq]
  constructor
  · rintro ⟨⟨q, c⟩, hm, rfl⟩
    exact ⟨c, hm⟩
  · rintro ⟨c, hm⟩
    exact ⟨(p, c), hm, rfl⟩

theorem mem_fsRemove {fs : FS} {p : SPath} {e : SPath × FileContent}
    (h : e ∈ fsRemove fs p) : e ∈ fs :=
  (List.mem_filter.mp h).1

theorem fsExists_fsWrite_self {fs : FS} {p : SPath} {c : FileContent} :
    fsExists (fsWrite fs p c) p = true := by
  simp [fsExists_iff, fsWrite]

theorem fsExists_fsWrite_of_ne {fs : FS} {p q : SPath} {c : FileContent} (h : p ≠ q) :
    fsExists (fsWrite fs q c) p = fsExists fs p := by
  simp [fsExists, fsWrite, Ne.symm h]

theorem fsExists_fsRemove_self {fs : FS} {p : SPath} :
    fsExists (fsRemove fs p) p = false := by
  by_contra hcon
  rw [Bool.not_eq_false, fsExists_iff] at hcon
  obtain ⟨c, hc⟩ := hcon
  have := (List.mem_filter.mp hc).2
  simp at this

theorem fsExists_fsRemove_of_ne {fs : FS} {p q : SPath} (h : p ≠ q) :
    fsExists (fsRemove fs q) p = fsExists fs p := by
  rw [bool_eq_iff, fsExists_iff, fsExists_iff]
  constructor
  · rintro ⟨c, hc⟩
    exact ⟨c, mem_fsRemove hc⟩
  · rintro ⟨c, hc⟩
    refine ⟨c, List.mem_filter.mpr ⟨hc, ?_⟩⟩
    simp [h]

theorem fsExists_mono_fsRemove {fs : FS} {p q : SPath}
    (h : fsExists (fsRemove fs q) p = true) : fsExists fs p = true := by
  rw [fsExists_iff] at h ⊢
  obtain ⟨c, hc⟩ := h
  exact ⟨c, mem_fsRemove hc⟩

theorem mem_cleanup_one {fs : FS} {fp : SPath} {e : SPath × FileContent}
    (h : e ∈ cleanup_one fs fp) : e ∈ fs := by
  unfold cleanup_one at h
  split at h
  · exact mem_fsRemove (mem_fsRemove h)
  · exact mem_fsRemove h

theorem mem_cleanup {l : List SPath} {fs : FS} {e : SPath × FileContent}
    (h : e ∈ cleanup fs l) : e ∈ fs := by
  induction l generalizing fs with
  | nil => exact h
  | cons fp rest ih => exact mem_cleanup_one (ih h)

theorem fsExists_mono_cleanup {l : List SPath} {fs : FS} {p : SPath}
    (h : fsExists (cleanup fs l) p = true) : fsExists fs p = true := by
  rw [fsExists_iff] at h ⊢
  obtain ⟨c, hc⟩ := h
  exact ⟨c, mem_cleanup hc⟩

theorem fsExists_cleanup_one_self {fs : FS} {fp : SPath} :
    fsExists (cleanup_one fs fp) fp = false := by
  unfold cleanup_one
  split
  · by_cases h : fp = jsonOf fp
    · rw [← h]; exact fsExists_fsRemove_self
    · rw [fsExists_fsRemove_of_ne h]; exact fsExists_fsRemove_self
  · exact fsExists_fsRemove_self

theorem fsExists_cleanup_one_json {fs : FS} {fp : SPath} :
    fsExists (cleanup_one fs fp) (jsonOf fp) = false := by
  unfold cleanup_one
  split
  · exact fsExists_fsRemove_self
  · next h => simpa using h

theorem fsExists_cleanup_of_mem {l : List SPath} {fs : FS} {p : SPath} (h : p ∈ l) :
    fsExists (cleanup fs l) p = false := by
  induction l generalizing fs with
  | nil => cases h
  | cons fp rest ih =>
      rcases List.mem_cons.mp h with h | h
      · subst h
        rw [cleanup]
        by_contra hcon
        rw [Bool.not_eq_false] at hcon
        have := fsExists_mono_cleanup hcon
        rw [fsExists_cleanup_one_self] at this
        exact absurd this (by simp)
      · exact ih h

theorem fsExists_cleanup_json_of_mem {l : List SPath} {fs : FS} {p : SPath} (h : p ∈ l) :
    fsExists (cleanup fs l) (jsonOf p) = false := by
  induction l generalizing fs with
  | nil => cases h
  | cons fp rest ih =>
      rcases List.mem_cons.mp h with h | h
      · subst h
        rw [cleanup]
        by_contra hcon
        rw [Bool.not_eq_false] at hcon
        have := fsExists_mono_cleanup hcon
        rw [fsExists_cleanup_one_json] at this
        exact absurd this (by simp)
      · exact ih h

theorem fsExists_cleanup_one_of_ne {fs : FS} {fp p : SPath}
    (h1 : p ≠ fp) (h2 : p ≠ jsonOf fp) :
    fsExists (cleanup_one fs fp) p = fsExists fs p := by
  unfold cleanup_one
  split
  · rw [fsExists_fsRemove_of_ne h2, fsExists_fsRemove_of_ne h1]
  · rw [fsExists_fsRemove_of_ne h1]

theorem fsExists_cleanup_of_notin {l : List SPath} {fs : FS} {p : SPath}
    (h : ∀ q ∈ l, p ≠ q ∧ p ≠ jsonOf q) :
    fsExists (cleanup fs l) p = fsExists fs p := by
  induction l generalizing fs with
  | nil => rfl
  | cons fp rest ih =>
      have hd := h fp (by simp)
      rw [cleanup, ih (fun q hq => h q (by simp [hq])), fsExists_cleanup_one_of_ne hd.1 hd.2]

/-- The extension of an image path is never `.json`. -/
theorem ext_of_ne_json (ft : String) : ext_of ft ≠ FileExt.json := by
  unfold ext_of
  split
  · simp
  · split <;> simp

theorem imgPath_ne_jsonOf (ft ft' : String) (ts ts' : String) (e : FileExt) :
    imgPath ft ts ≠ jsonOf ⟨ft', ts', e⟩ := by
  simp only [imgPath, jsonOf, ne_eq, SPath.mk.injEq, not_and]
  intro _ _
  exact ext_of_ne_json ft

theorem imgPath_ne_jsonOf' (ft ts : String) (q : SPath) : imgPath ft ts ≠ jsonOf q := by
  cases q
  exact imgPath_ne_jsonOf ft _ ts _ _

theorem jsonOf_imgPath (ft ts : String) :
    jsonOf (imgPath ft ts) = ⟨ft, ts, FileExt.json⟩ := rfl

theorem imgPath_frameType (ft ts : String) : (imgPath ft ts).frameType = ft := rfl

theorem imgPath_ne_of_ne {ft ft' : String} (ts ts' : String) (h : ft ≠ ft') :
    imgPath ft ts ≠ imgPath ft' ts' := by
  simp only [imgPath, ne_eq, SPath.mk.injEq, not_and]
  intro hc
  exact absurd hc h

/-! Lemmas about the save loop of `save_frames_with_metadata`. -/

theorem sfwm_go_nil (sm : StorageManager) (metaFails : SPath → Bool) (em : MetaIn)
    (ts : String) (fs : FS) (saved : List SPath) :
    sfwm_go sm metaFails em ts [] fs saved = (fs, Except.ok saved) := rfl

theorem sfwm_go_cons_none (sm : StorageManager) (metaFails : SPath → Bool) (em : MetaIn)
    (ts ft : String) (rest : List (String × Option Frame)) (fs : FS) (saved : List SPath) :
    sfwm_go sm metaFails em ts ((ft, none) :: rest) fs saved =
      sfwm_go sm metaFails em ts rest fs saved := rfl

theorem sfwm_go_cons_some_fail (sm : StorageManager) (metaFails : SPath → Bool) (em : MetaIn)
    (ts ft : String) (f : Frame) (rest : List (String × Option Frame)) (fs : FS)
    (saved : List SPath) (h : metaFails (jsonOf (imgPath ft ts)) = true) :
    sfwm_go sm metaFails em ts ((ft, some f) :: rest) fs saved =
      (cleanup (fsWrite fs (imgPath ft ts) (FileContent.image (encodeParam sm ft))) saved,
        Except.error ()) := by
  rw [sfwm_go]
  simp [save_frame, save_metadata, h]

theorem sfwm_go_cons_some_ok (sm : StorageManager) (metaFails : SPath → Bool) (em : MetaIn)
    (ts ft : String) (f : Frame) (rest : List (String × Option Frame)) (fs : FS)
    (saved : List SPath) (h : metaFails (jsonOf (imgPath ft ts)) = false) :
    sfwm_go sm metaFails em ts ((ft, some f) :: rest) fs saved =
      sfwm_go sm metaFails em ts rest
        (fsWrite (fsWrite fs (imgPath ft ts) (FileContent.image (encodeParam sm ft)))
          (jsonOf (imgPath ft ts))
          (FileContent.json em.capture_type em.gps sm.jpeg_quality sm.png_compression))
        (saved ++ [imgPath ft ts]) := by
  rw [sfwm_go]
  simp [save_frame, save_metadata, h]

theorem sfwm_go_all_none (sm : StorageManager) (metaFails : SPath → Bool) (em : MetaIn)
    (ts : String) :
    ∀ (frames : List (String × Option Frame)) (fs : FS) (saved : List SPath),
      (∀ e ∈ frames, e.2 = none) →
      sfwm_go sm metaFails em ts frames fs saved = (fs, Except.ok saved)
  | [], fs, saved, _ => rfl
  | (ft, fr) :: rest, fs, saved, h => by
      have hh := h (ft, fr) (by simp)
      simp only at hh
      subst hh
      rw [sfwm_go_cons_none]
      exact sfwm_go_all_none sm metaFails em ts rest fs saved
        (fun e he => h e (by simp [he]))

/-- Where each entry of the final disk state comes from: it was already
present, or it is an image written by `save_frame` (carrying the current
encoder parameter), or it is a metadata record written by `save_metadata`
(carrying the call's capture type/fix and the current quality settings). -/
theorem sfwm_go_provenance (sm : StorageManager) (metaFails : SPath → Bool) (em : MetaIn)
    (ts : String) :
    ∀ (frames : List (String × Option Frame)) (fs : FS) (saved : List SPath)
      (e : SPath × FileContent),
      e ∈ (sfwm_go sm metaFails em ts frames fs saved).1 →
      e ∈ fs ∨
      (∃ ft, e = (imgPath ft ts, FileContent.image (encodeParam sm ft))) ∨
      (∃ ft, e = (jsonOf (imgPath ft ts),
        FileContent.json em.capture_type em.gps sm.jpeg_quality sm.png_compression)) := by
  intro frames
  induction frames with
  | nil => intro fs saved e he; exact Or.inl he
  | cons hd rest ih =>
      rcases hd with ⟨ft, fr⟩
      rcases fr with _ | f
      · intro fs saved e he
        rw [sfwm_go_cons_none] at he
        exact ih fs saved e he
      · intro fs saved e he
        by_cases hmf : metaFails (jsonOf (imgPath ft ts)) = true
        · rw [sfwm_go_cons_some_fail sm metaFails em ts ft f rest fs saved hmf] at he
          have hm := mem_cleanup he
          rcases List.mem_cons.mp hm with hm | hm
          · exact Or.inr (Or.inl ⟨ft, hm⟩)
          · exact Or.inl hm
        · rw [sfwm_go_cons_some_ok sm metaFails em ts ft f rest fs saved
            (by simpa using hmf)] at he
          rcases ih _ _ e he with hin | hsh
          · rcases List.mem_cons.mp hin with hm | hm
            · exact Or.inr (Or.inr ⟨ft, hm⟩)
            · rcases List.mem_cons.mp hm with hm2 | hm2
              · exact Or.inr (Or.inl ⟨ft, hm2⟩)
              · exact Or.inl hm2
          · exact Or.inr hsh

theorem fsExists_fsWrite_mono {fs : FS} {p q : SPath} {c : FileContent}
    (h : fsExists fs p = true) : fsExists (fsWrite fs q c) p = true := by
  rw [fsExists_iff] at h ⊢
  obtain ⟨cc, hc⟩ := h
  exact ⟨cc, by simp [fsWrite, hc]⟩

/-- When no metadata write fails, the save loop never removes anything:
existing files persist and every populated frame ends up on disk as an
image/metadata pair. -/
theorem sfwm_go_no_fail_mono (sm : StorageManager) (metaFails : SPath → Bool) (em : MetaIn)
    (ts : String) (hmf : ∀ p, metaFails p = false) :
    ∀ (frames : List (String × Option Frame)) (fs : FS) (saved : List SPath) (p : SPath),
      fsExists fs p = true →
      fsExists (sfwm_go sm metaFails em ts frames fs saved).1 p = true := by
  intro frames
  induction frames with
  | nil => intro fs saved p hp; exact hp
  | cons hd rest ih =>
      rcases hd with ⟨ft, fr⟩
      rcases fr with _ | f
      · intro fs saved p hp
        rw [sfwm_go_cons_none]
        exact ih fs saved p hp
      · intro fs saved p hp
        rw [sfwm_go_cons_some_ok sm metaFails em ts ft f rest fs saved (hmf _)]
        exact ih _ _ p (fsExists_fsWrite_mono (fsExists_fsWrite_mono hp))

theorem sfwm_go_no_fail_writes (sm : StorageManager) (metaFails : SPath → Bool) (em : MetaIn)
    (ts : String) (hmf : ∀ p, metaFails p = false) :
    ∀ (frames : List (String × Option Frame)) (fs : FS) (saved : List SPath)
      (ft : String) (f : Frame), (ft, some f) ∈ frames →
      fsExists (sfwm_go sm metaFails em ts frames fs saved).1 (imgPath ft ts) = true ∧
      fsExists (sfwm_go sm metaFails em ts frames fs saved).1 (jsonOf (imgPath ft ts)) = true := by
  intro frames
  induction frames with
  | nil => intro fs saved ft f h; cases h
  | cons hd rest ih =>
      rcases hd with ⟨ft', fr'⟩
      rcases fr' with _ | f'
      · intro fs saved ft f h
        rw [sfwm_go_cons_none]
        rcases List.mem_cons.mp h with h | h
        · cases h
        · exact ih fs saved ft f h
      · intro fs saved ft f h
        rw [sfwm_go_cons_some_ok sm metaFails em ts ft' f' rest fs saved (hmf _)]
        rcases List.mem_cons.mp h with h | h
        · have hft : ft = ft' := by
            cases h
            rfl
          subst hft
          constructor
          · exact sfwm_go_no_fail_mono sm metaFails em ts hmf rest _ _ _
              (fsExists_fsWrite_mono fsExists_fsWrite_self)
          · exact sfwm_go_no_fail_mono sm metaFails em ts hmf rest _ _ _
              fsExists_fsWrite_self
        · exact ih _ _ ft f h

/-- The save loop on a suffix containing a populated frame whose metadata
write fails, given that the metadata writes of the populated frames
before it succeed: the exception propagates, the failing frame's image
survives (the cleanup loop only covers the paths appended to
`saved_files`, and the failing path never was), and everything recorded
in `saved_files` is removed together with its metadata sibling. -/
theorem sfwm_go_metadata_failure (sm : StorageManager) (metaFails : SPath → Bool) (em : MetaIn)
    (ts : String) (ft : String) (f : Frame) (post : List (String × Option Frame))
    (hfail : metaFails (jsonOf (imgPath ft ts)) = true) :
    ∀ (pre : List (String × Option Frame)) (fs : FS) (saved : List SPath),
      (∀ e ∈ pre, e.2 ≠ none → metaFails (jsonOf (imgPath e.1 ts)) = false) →
      ft ∉ pre.map Prod.fst →
      imgPath ft ts ∉ saved →
      (sfwm_go sm metaFails em ts (pre ++ (ft, some f) :: post) fs saved).2 =
        Except.error () ∧
      fsExists (sfwm_go sm metaFails em ts (pre ++ (ft, some f) :: post) fs saved).1
        (imgPath ft ts) = true ∧
      (∀ q ∈ saved,
        fsExists (sfwm_go sm metaFails em ts (pre ++ (ft, some f) :: post) fs saved).1 q
          = false ∧
        fsExists (sfwm_go sm metaFails em ts (pre ++ (ft, some f) :: post) fs saved).1
          (jsonOf q) = false) ∧
      (∀ e ∈ pre, e.2 ≠ none →
        fsExists (sfwm_go sm metaFails em ts (pre ++ (ft, some f) :: post) fs saved).1
          (imgPath e.1 ts) = false ∧
        fsExists (sfwm_go sm metaFails em ts (pre ++ (ft, some f) :: post) fs saved).1
          (jsonOf (imgPath e.1 ts)) = false) := by
  intro pre
  induction pre with
  | nil =>
      intro fs saved _ _ hsaved
      simp only [List.nil_append]
      rw [sfwm_go_cons_some_fail sm metaFails em ts ft f post fs saved hfail]
      refine ⟨rfl, ?_, ?_, ?_⟩
      · show fsExists (cleanup _ saved) _ = true
        rw [fsExists_cleanup_of_notin
          (fun q hq => ⟨fun hc => hsaved (by rw [hc]; exact hq), imgPath_ne_jsonOf' ft ts q⟩)]
        exact fsExists_fsWrite_self
      · intro q hq
        exact ⟨fsExists_cleanup_of_mem hq, fsExists_cleanup_json_of_mem hq⟩
      · intro e he
        cases he
  | cons hd pre' ih =>
      rcases hd with ⟨ft', fr'⟩
      rcases fr' with _ | f'
      · intro fs saved hpre hft hsaved
        simp only [List.cons_append]
        rw [sfwm_go_cons_none]
        have hrec := ih fs saved (fun e he h2 => hpre e (by simp [he]) h2)
          (fun hc => hft (by simp [hc])) hsaved
        refine ⟨hrec.1, hrec.2.1, hrec.2.2.1, ?_⟩
        intro e he hne
        rcases List.mem_cons.mp he with he | he
        · rw [he] at hne
          simp at hne
        · exact hrec.2.2.2 e he hne
      · intro fs saved hpre hft hsaved
        have hft' : ft ≠ ft' := by
          intro hc
          exact hft (by simp [hc])
        have hok : metaFails (jsonOf (imgPath ft' ts)) = false :=
          hpre (ft', some f') (by simp) (by simp)
        simp only [List.cons_append]
        rw [sfwm_go_cons_some_ok sm metaFails em ts ft' f' _ fs saved hok]
        have hrec := ih
          (fsWrite (fsWrite fs (imgPath ft' ts) (FileContent.image (encodeParam sm ft')))
            (jsonOf (imgPath ft' ts))
            (FileContent.json em.capture_type em.gps sm.jpeg_quality sm.png_compression))
          (saved ++ [imgPath ft' ts])
          (fun e he h2 => hpre e (by simp [he]) h2)
          (fun hc => hft (by simp [hc]))
          (by
            intro hc
            rcases List.mem_append.mp hc with hc | hc
            · exact hsaved hc
            · exact imgPath_ne_of_ne ts ts hft' (List.mem_singleton.mp hc))
        refine ⟨hrec.1, hrec.2.1, ?_, ?_⟩
        · intro q hq
          exact hrec.2.2.1 q (by simp [hq])
        · intro e he hne
          rcases List.mem_cons.mp he with he | he
          · have he1 : e.1 = ft' := by rw [he]
            rw [he1]
            exact hrec.2.2.1 (imgPath ft' ts) (by simp)
          · exact hrec.2.2.2 e he hne

/-- C1 counterexample: a call saving a single `rgb` frame whose metadata
write fails.  The call raises, yet the `rgb` image file still exists
afterwards: `saved_files` was still empty when the exception hit, so the
cleanup loop removed nothing.  This contradicts the claim that the
already-written image no longer exists after the call. -/
theorem C1_counterexample :
    (save_frames_with_metadata smD failAllJson [("rgb", some ())] none "t0" "auto" []).2 =
      Except.error () ∧
    fsExists (save_frames_with_metadata smD failAllJson [("rgb", some ())] none "t0" "auto"
      []).1 (imgPath "rgb" "t0") = true :=
  ⟨rfl, rfl⟩

/-- C1 (amended): when the metadata write of a populated frame fails
after its image write succeeded (the metadata writes of the populated
frames before it having succeeded), `save_frames_with_metadata` fails
with an error and removes every image/metadata pair fully saved earlier
in the call, but the image whose metadata write failed remains on disk. -/
theorem C1_theorem (sm : StorageManager) (metaFails : SPath → Bool)
    (pre post : List (String × Option Frame)) (ft : String) (f : Frame)
    (gps : Option Coords) (ts capture_type : String) (fs : FS)
    (hfail : metaFails (jsonOf (imgPath ft ts)) = true)
    (hpre : ∀ e ∈ pre, e.2 ≠ none → metaFails (jsonOf (imgPath e.1 ts)) = false)
    (hft : ft ∉ pre.map Prod.fst) :
    (save_frames_with_metadata sm metaFails (pre ++ (ft, some f) :: post) gps ts capture_type
      fs).2 = Except.error () ∧
    fsExists (save_frames_with_metadata sm metaFails (pre ++ (ft, some f) :: post) gps ts
      capture_type fs).1 (imgPath ft ts) = true ∧
    (∀ e ∈ pre, e.2 ≠ none →
      fsExists (save_frames_with_metadata sm metaFails (pre ++ (ft, some f) :: post) gps ts
        capture_type fs).1 (imgPath e.1 ts) = false ∧
      fsExists (save_frames_with_metadata sm metaFails (pre ++ (ft, some f) :: post) gps ts
        capture_type fs).1 (jsonOf (imgPath e.1 ts)) = false) := by
  have h := sfwm_go_metadata_failure sm metaFails ⟨gps, capture_type⟩ ts ft f post hfail pre
    fs [] hpre hft (by simp)
  exact ⟨h.1, h.2.1, h.2.2.2⟩

/-- C1 witness: a two-frame call where the `depth` metadata write fails;
the fully saved `rgb` pair is removed, the `depth` image remains, and the
call errors out. -/
theorem C1_witness :
    (save_frames_with_metadata smD failDepthJson
      ([("rgb", some ())] ++ ("depth", some ()) :: []) none "t0" "auto" []).2 =
      Except.error () ∧
    fsExists (save_frames_with_metadata smD failDepthJson
      ([("rgb", some ())] ++ ("depth", some ()) :: []) none "t0" "auto" []).1
      (imgPath "depth" "t0") = true ∧
    (∀ e ∈ [("rgb", (some () : Option Frame))], e.2 ≠ none →
      fsExists (save_frames_with_metadata smD failDepthJson
        ([("rgb", some ())] ++ ("depth", some ()) :: []) none "t0" "auto" []).1
        (imgPath e.1 "t0") = false ∧
      fsExists (save_frames_with_metadata smD failDepthJson
        ([("rgb", some ())] ++ ("depth", some ()) :: []) none "t0" "auto" []).1
        (jsonOf (imgPath e.1 "t0")) = false) :=
  C1_theorem smD failDepthJson [("rgb", some ())] [] "depth" () none "t0" "auto" []
    (by decide) (by decide) (by decide)

/-- C7: persisting a bundle whose frame mapping is empty or has only
`None` entries writes nothing (the disk state is returned unchanged) and
reports an empty list of saved paths. -/
theorem C7_theorem (sm : StorageManager) (metaFails : SPath → Bool)
    (frames : List (String × Option Frame)) (gps : Option Coords) (ts capture_type : String)
    (fs : FS) (h : ∀ e ∈ frames, e.2 = none) :
    save_frames_with_metadata sm metaFails frames gps ts capture_type fs =
      (fs, Except.ok []) :=
  sfwm_go_all_none sm metaFails ⟨gps, capture_type⟩ ts frames fs [] h

/-- C7 witness: a bundle of two `None` streams produces no artifact and
zero saved paths. -/
theorem C7_witness :
    save_frames_with_metadata smD failAllJson [("rgb", none), ("depth", none)] none "t0"
      "auto" [] = ([], Except.ok []) :=
  C7_theorem smD failAllJson [("rgb", none), ("depth", none)] none "t0" "auto" []
    (by decide)

/-- C9 counterexample: `0.5` is a positive interval value, yet the
configuration check `if interval_settings['value'] < 1` rejects it with
an error, contradicting the claim that every positive value is accepted. -/
theorem C9_counterexample :
    (0 : ℚ) < 1 / 2 ∧
    validate_interval_settings (1 / 2) =
      Except.error "Interval must be at least 1 second" := by
  refine ⟨by norm_num, ?_⟩
  rw [validate_interval_settings, if_pos (by norm_num)]

/-- C9 (amended): at configuration time an interval value below `1` is
rejected with an error before the system is started (in particular all
values `≤ 0` are), and every value `≥ 1` is accepted. -/
theorem C9_theorem (v : ℚ) :
    (v < 1 →
      validate_interval_settings v = Except.error "Interval must be at least 1 second") ∧
    (1 ≤ v → validate_interval_settings v = Except.ok v) := by
  constructor
  · intro h
    rw [validate_interval_settings, if_pos h]
  · intro h
    rw [validate_interval_settings, if_neg (not_lt.mpr h)]

/-- C9 witness: `0` is rejected, `30` is accepted. -/
theorem C9_witness :
    validate_interval_settings 0 = Except.error "Interval must be at least 1 second" ∧
    validate_interval_settings 30 = Except.ok 30 :=
  ⟨(C9_theorem 0).1 (by norm_num), (C9_theorem 30).2 (by norm_num)⟩

/-- C10: `set_image_quality` stores `jpeg_quality` clamped into
`[0, 100]` and `png_compression` clamped into `[0, 9]` (in-range inputs
pass through, out-of-range inputs saturate), and every subsequent save
uses the stored values: any image file newly written by
`save_frames_with_metadata` carries the stored encoder parameter for its
stream, and any metadata record newly written embeds the stored pair. -/
theorem C10_theorem (sm : StorageManager) (j p : ℤ) :
    0 ≤ (set_image_quality sm j p).jpeg_quality ∧
    (set_image_quality sm j p).jpeg_quality ≤ 100 ∧
    0 ≤ (set_image_quality sm j p).png_compression ∧
    (set_image_quality sm j p).png_compression ≤ 9 ∧
    (0 ≤ j → j ≤ 100 → (set_image_quality sm j p).jpeg_quality = j) ∧
    (j < 0 → (set_image_quality sm j p).jpeg_quality = 0) ∧
    (100 < j → (set_image_quality sm j p).jpeg_quality = 100) ∧
    (0 ≤ p → p ≤ 9 → (set_image_quality sm j p).png_compression = p) ∧
    (p < 0 → (set_image_quality sm j p).png_compression = 0) ∧
    (9 < p → (set_image_quality sm j p).png_compression = 9) ∧
    (∀ (metaFails : SPath → Bool) (frames : List (String × Option Frame))
      (gps : Option Coords) (ts capture_type : String) (fs : FS) (pth : SPath) (q : ℤ),
      (pth, FileContent.image q) ∈
        (save_frames_with_metadata (set_image_quality sm j p) metaFails frames gps ts
          capture_type fs).1 →
      (pth, FileContent.image q) ∈ fs ∨
        q = encodeParam (set_image_quality sm j p) pth.frameType) ∧
    (∀ (metaFails : SPath → Bool) (frames : List (String × Option Frame))
      (gps : Option Coords) (ts capture_type : String) (fs : FS) (pth : SPath)
      (ct : String) (g : Option Coords) (jq pc : ℤ),
      (pth, FileContent.json ct g jq pc) ∈
        (save_frames_with_metadata (set_image_quality sm j p) metaFails frames gps ts
          capture_type fs).1 →
      (pth, FileContent.json ct g jq pc) ∈ fs ∨
        (jq = (set_image_quality sm j p).jpeg_quality ∧
          pc = (set_image_quality sm j p).png_compression)) := by
  refine ⟨?_, ?_, ?_, ?_, ?_, ?_, ?_, ?_, ?_, ?_, ?_, ?_⟩
  · simp only [set_image_quality]
    omega
  · simp only [set_image_quality]
    omega
  · simp only [set_image_quality]
    omega
  · simp only [set_image_quality]
    omega
  · intro h1 h2
    simp only [set_image_quality]
    omega
  · intro h
    simp only [set_image_quality]
    omega
  · intro h
    simp only [set_image_quality]
    omega
  · intro h1 h2
    simp only [set_image_quality]
    omega
  · intro h
    simp only [set_image_quality]
    omega
  · intro h
    simp only [set_image_quality]
    omega
  · intro metaFails frames gps ts ct fs pth q hmem
    rcases sfwm_go_provenance (set_image_quality sm j p) metaFails ⟨gps, ct⟩ ts frames fs []
      _ hmem with h | ⟨ft, hsh⟩ | ⟨ft, hsh⟩
    · exact Or.inl h
    · right
      simp only [Prod.mk.injEq] at hsh
      obtain ⟨h1, h2⟩ := hsh
      injection h2 with h3
      rw [h1, imgPath_frameType]
      exact h3
    · exfalso
      simp only [Prod.mk.injEq] at hsh
      exact absurd hsh.2 (by simp)
  · intro metaFails frames gps ts ct fs pth ct' g jq pc hmem
    rcases sfwm_go_provenance (set_image_quality sm j p) metaFails ⟨gps, ct⟩ ts frames fs []
      _ hmem with h | ⟨ft, hsh⟩ | ⟨ft, hsh⟩
    · exact Or.inl h
    · exfalso
      simp only [Prod.mk.injEq] at hsh
      exact absurd hsh.2 (by simp)
    · right
      simp only [Prod.mk.injEq] at hsh
      obtain ⟨h1, h2⟩ := hsh
      injection h2 with hct hg hjq hpc
      exact ⟨hjq, hpc⟩

/-- C10 witness: `set_image_quality 150 (-3)` clamps to `100` and `0`,
both in range. -/
theorem C10_witness :
    0 ≤ (set_image_quality smD 150 (-3)).jpeg_quality ∧
    (set_image_quality smD 150 (-3)).jpeg_quality ≤ 100 ∧
    (set_image_quality smD 150 (-3)).jpeg_quality = 100 ∧
    (set_image_quality smD 150 (-3)).png_compression = 0 :=
  ⟨(C10_theorem smD 150 (-3)).1, (C10_theorem smD 150 (-3)).2.1,
    (C10_theorem smD 150 (-3)).2.2.2.2.2.2.1 (by norm_num),
    (C10_theorem smD 150 (-3)).2.2.2.2.2.2.2.2.1 (by norm_num)⟩

/-- C3: with both fixes present the motion filter returns `false` when
both absolute axis deltas are at most the `0.0001` degree threshold and
`true` when either exceeds it; with either fix absent it returns `true`. -/
theorem C3_theorem (last cur : Option Coords) :
    (∀ p c, last = some p → cur = some c →
      ((|c.latitude - p.latitude| ≤ gps_threshold ∧
        |c.longitude - p.longitude| ≤ gps_threshold) →
        (check_motion last cur).2 = false) ∧
      ((gps_threshold < |c.latitude - p.latitude| ∨
        gps_threshold < |c.longitude - p.longitude|) →
        (check_motion last cur).2 = true)) ∧
    (last = none → (check_motion last cur).2 = true) ∧
    (cur = none → (check_motion last cur).2 = true) := by
  refine ⟨?_, ?_, ?_⟩
  · rintro p c rfl rfl
    constructor
    · rintro ⟨h1, h2⟩
      simp [check_motion, not_lt.mpr h1, not_lt.mpr h2]
    · rintro (h | h) <;> simp [check_motion, h]
  · rintro rfl
    cases cur <;> rfl
  · rintro rfl
    cases last <;> rfl

/-- C3 witness: a stationary pair (half-threshold deltas), a moving pair
(double-threshold latitude delta), and both absent-fix cases. -/
theorem C3_witness :
    (check_motion (some c00) (some ⟨1 / 20000, 1 / 20000⟩)).2 = false ∧
    (check_motion (some c00) (some ⟨2 / 10000, 0⟩)).2 = true ∧
    (check_motion none (some c00)).2 = true ∧
    (check_motion (some c00) none).2 = true :=
  ⟨((C3_theorem (some c00) (some ⟨1 / 20000, 1 / 20000⟩)).1 c00 ⟨1 / 20000, 1 / 20000⟩ rfl
      rfl).1 (by constructor <;> · rw [abs_le]; constructor <;> norm_num [c00, gps_threshold]),
    ((C3_theorem (some c00) (some ⟨2 / 10000, 0⟩)).1 c00 ⟨2 / 10000, 0⟩ rfl rfl).2
      (Or.inl (by rw [lt_abs]; left; norm_num [c00, gps_threshold])),
    (C3_theorem none (some c00)).2.1 rfl,
    (C3_theorem (some c00) none).2.2 rfl⟩

/-- C5: the motion filter adopts the current fix as the stored baseline
exactly when it reports motion; on a stationary pair (both fixes present,
both deltas within the threshold) the stored baseline is unchanged. -/
theorem C5_theorem (p c : Coords) :
    ((|c.latitude - p.latitude| ≤ gps_threshold ∧
      |c.longitude - p.longitude| ≤ gps_threshold) →
      (check_motion (some p) (some c)).1 = some p) ∧
    ((check_motion (some p) (some c)).2 = true →
      (check_motion (some p) (some c)).1 = some c) := by
  constructor
  · rintro ⟨h1, h2⟩
    simp [check_motion, not_lt.mpr h1, not_lt.mpr h2]
  · intro h
    simp only [check_motion] at h ⊢
    rw [if_pos h]

/-! Lemmas about the haversine distance. -/

theorem sin_half_sq_swap (x y : ℝ) :
    Real.sin ((x - y) / 2) ^ 2 = Real.sin ((y - x) / 2) ^ 2 := by
  rw [show (x - y) = -(y - x) by ring, neg_div, Real.sin_neg, neg_sq]

theorem calculate_distance_self (A : Coords) : calculate_distance A A = 0 := by
  simp only [calculate_distance]
  norm_num [atan2, Real.arctan_zero]

theorem calculate_distance_comm (A B : Coords) :
    calculate_distance A B = calculate_distance B A := by
  simp only [calculate_distance]
  have key : ∀ x y u v : ℝ,
      Real.sin ((y - x) / 2) ^ 2 + Real.cos x * Real.cos y * Real.sin ((v - u) / 2) ^ 2 =
      Real.sin ((x - y) / 2) ^ 2 + Real.cos y * Real.cos x * Real.sin ((u - v) / 2) ^ 2 := by
    intro x y u v
    rw [sin_half_sq_swap y x, sin_half_sq_swap v u]
    ring
  rw [key (radians (A.latitude : ℝ)) (radians (B.latitude : ℝ))
    (radians (A.longitude : ℝ)) (radians (B.longitude : ℝ))]

/-- The haversine distance between `(0, 0)` and `(0, 1°)` in closed form:
one degree of arc on the modelled Earth radius. -/
theorem calculate_distance_c00_c01 :
    calculate_distance c00 c01 = 6371000 * (Real.pi / 180) := by
  have hπ := Real.pi_pos
  have ht0 : (0 : ℝ) < Real.pi / 360 := by positivity
  have htlt : Real.pi / 360 < Real.pi / 2 := by linarith
  have hsinpos : 0 < Real.sin (Real.pi / 360) :=
    Real.sin_pos_of_pos_of_lt_pi ht0 (by linarith)
  have hcospos : 0 < Real.cos (Real.pi / 360) :=
    Real.cos_pos_of_mem_Ioo ⟨by linarith, htlt⟩
  simp only [calculate_distance, c00, c01, radians]
  norm_num
  rw [show Real.pi / 180 / 2 = Real.pi / 360 by ring]
  have h2 : (1 : ℝ) - Real.sin (Real.pi / 360) ^ 2 = Real.cos (Real.pi / 360) ^ 2 := by
    have := Real.sin_sq_add_cos_sq (Real.pi / 360)
    linarith
  rw [h2, Real.sqrt_sq hsinpos.le, Real.sqrt_sq hcospos.le]
  simp only [atan2]
  rw [if_pos hcospos, ← Real.tan_eq_sin_div_cos,
    Real.arctan_tan (by linarith) htlt]
  ring

theorem calculate_distance_c00_c01_ge_30 : calculate_distance c00 c01 ≥ 30 := by
  rw [calculate_distance_c00_c01]
  nlinarith [Real.pi_gt_d6]

/-- C6: the haversine distance of `GPSManager.calculate_distance` (Earth
radius 6371000 m) vanishes on identical fixes, is symmetric, and between
`(0, 0)` and `(0, 1°)` lies within 1 percent of 111320 m. -/
theorem C6_theorem (A B : Coords) :
    calculate_distance A A = 0 ∧
    calculate_distance A B = calculate_distance B A ∧
    |calculate_distance c00 c01 - 111320| ≤ 111320 / 100 := by
  refine ⟨calculate_distance_self A, calculate_distance_comm A B, ?_⟩
  rw [calculate_distance_c00_c01, abs_le]
  constructor <;> nlinarith [Real.pi_gt_d6, Real.pi_lt_d6]

/-! Structural lemmas about one tick of the save loop. -/

theorem capture_phase_state (sm : StorageManager) (st : AppState) (env : TickEnv)
    (coords : Option Coords) (sc : Bool) (fs : FS) :
    (capture_phase sm st env coords sc fs).1.gps_last_position = st.gps_last_position ∧
    (capture_phase sm st env coords sc fs).1.last_gps_coords = st.last_gps_coords ∧
    (capture_phase sm st env coords sc fs).1.interval_type = st.interval_type := by
  simp only [capture_phase]
  split
  · split <;> exact ⟨rfl, rfl, rfl⟩
  · exact ⟨rfl, rfl, rfl⟩

theorem capture_phase_save_time (sm : StorageManager) (st : AppState) (env : TickEnv)
    (coords : Option Coords) (sc : Bool) (fs : FS) :
    ((capture_phase sm st env coords sc fs).2.2 = false →
      (capture_phase sm st env coords sc fs).1.last_save_time = st.last_save_time) ∧
    ((capture_phase sm st env coords sc fs).2.2 = true →
      (capture_phase sm st env coords sc fs).1.last_save_time = env.current_time) := by
  simp only [capture_phase]
  split
  · split
    · exact ⟨fun h => by simp at h, fun _ => rfl⟩
    · exact ⟨fun _ => rfl, fun h => by simp at h⟩
  · exact ⟨fun _ => rfl, fun h => by simp at h⟩

theorem get_distance_moved_cur (lp cur : Option Coords) :
    (get_distance_moved lp cur).2.2 = cur := by
  rcases cur <;> rcases lp <;> rfl

theorem distance_trigger_fired (lp cur : Option Coords) (v : ℚ)
    (h : (distance_trigger lp cur v).2 = true) :
    (distance_trigger lp cur v).1 = cur := by
  simp only [distance_trigger] at h ⊢
  split
  · exact get_distance_moved_cur lp cur
  · next hcond =>
      rw [if_neg hcond] at h
      simp at h

theorem distance_trigger_none (cur : Option Coords) (v : ℚ) :
    (distance_trigger none cur v).1 = cur := by
  rcases cur with _ | c
  · simp only [distance_trigger, get_distance_moved]
    split <;> rfl
  · simp only [distance_trigger, get_distance_moved]
    split <;> rfl

theorem tick_glp_dist (sm : StorageManager) (st : AppState) (env : TickEnv) (fs : FS)
    (hg : st.has_gps = true) (hd : st.interval_type = IntervalType.distance) :
    (save_loop_tick sm st env fs).1.gps_last_position =
      (distance_trigger st.gps_last_position env.coords st.interval_value).1 := by
  simp only [save_loop_tick, hg, hd, if_pos, ite_true]
  split
  · split
    · exact (capture_phase_state ..).1
    · rfl
  · exact (capture_phase_state ..).1

theorem tick_glp_time (sm : StorageManager) (st : AppState) (env : TickEnv) (fs : FS)
    (hd : st.interval_type = IntervalType.time) :
    (save_loop_tick sm st env fs).1.gps_last_position = st.gps_last_position := by
  have hne : ¬(st.interval_type = IntervalType.distance) := by
    rw [hd]
    intro hc
    cases hc
  by_cases hg : st.has_gps = true
  · simp only [save_loop_tick, hg, hne, ite_true, ite_false, if_pos, if_neg, reduceIte]
    split
    · split
      · exact (capture_phase_state ..).1
      · rfl
    · exact (capture_phase_state ..).1
  · simp only [save_loop_tick, hg, reduceIte]
    split
    · split
      · exact (capture_phase_state ..).1
      · rfl
    · exact (capture_phase_state ..).1

theorem tick_save_time (sm : StorageManager) (st : AppState) (env : TickEnv) (fs : FS) :
    ((save_loop_tick sm st env fs).2.2 = false →
      (save_loop_tick sm st env fs).1.last_save_time = st.last_save_time) ∧
    ((save_loop_tick sm st env fs).2.2 = true →
      (save_loop_tick sm st env fs).1.last_save_time = env.current_time) := by
  simp only [save_loop_tick]
  split
  · split
    · constructor
      · intro h
        exact (capture_phase_save_time ..).1 h
      · intro h
        exact (capture_phase_save_time ..).2 h
    · exact ⟨fun _ => rfl, fun h => by simp at h⟩
  · constructor
    · intro h
      exact (capture_phase_save_time ..).1 h
    · intro h
      exact (capture_phase_save_time ..).2 h

theorem tick_stationary (sm : StorageManager) (st : AppState) (env : TickEnv) (fs : FS)
    (pc c : Coords) (hg : st.has_gps = true) (hc : env.coords = some c)
    (hl : st.last_gps_coords = some pc)
    (h1 : |c.latitude - pc.latitude| ≤ gps_threshold)
    (h2 : |c.longitude - pc.longitude| ≤ gps_threshold) :
    (save_loop_tick sm st env fs).2.2 = false ∧
    (save_loop_tick sm st env fs).2.1 = fs ∧
    (save_loop_tick sm st env fs).1.last_save_time = st.last_save_time ∧
    (save_loop_tick sm st env fs).1.last_gps_coords = st.last_gps_coords := by
  have hcm : check_motion (some pc) (some c) = (some pc, false) := by
    simp [check_motion, not_lt.mpr h1, not_lt.mpr h2]
  by_cases hd : st.interval_type = IntervalType.distance
  · simp only [save_loop_tick, hg, hd, reduceIte, hc, hl, hcm]
    norm_num
  · simp only [save_loop_tick, hg, hd, reduceIte, hc, hl, hcm]
    norm_num

theorem capture_phase_fs (sm : StorageManager) (st : AppState) (env : TickEnv)
    (coords : Option Coords) (sc : Bool) (fs : FS) (e : SPath × FileContent)
    (h : e ∈ (capture_phase sm st env coords sc fs).2.1) :
    e ∈ fs ∨
    (∃ ft, e = (imgPath ft env.ts, FileContent.image (encodeParam sm ft))) ∨
    (∃ ft, e = (jsonOf (imgPath ft env.ts),
      FileContent.json "auto" coords sm.jpeg_quality sm.png_compression)) := by
  simp only [capture_phase] at h
  split at h
  · split at h
    · exact sfwm_go_provenance sm env.metaFails ⟨coords, "auto"⟩ env.ts env.frames fs [] e h
    · exact sfwm_go_provenance sm env.metaFails ⟨coords, "auto"⟩ env.ts env.frames fs [] e h
  · exact Or.inl h

theorem tick_fs_cases (sm : StorageManager) (st : AppState) (env : TickEnv) (fs : FS) :
    (save_loop_tick sm st env fs).2.1 = fs ∨
    ∃ st2 coords sc,
      (save_loop_tick sm st env fs).2.1 = (capture_phase sm st2 env coords sc fs).2.1 := by
  simp only [save_loop_tick]
  split
  · split
    · right
      exact ⟨_, _, _, rfl⟩
    · left
      rfl
  · right
    exact ⟨_, _, _, rfl⟩

theorem tick_json_provenance (sm : StorageManager) (st : AppState) (env : TickEnv) (fs : FS)
    (pth : SPath) (ct : String) (g : Option Coords) (jq pc : ℤ)
    (h : (pth, FileContent.json ct g jq pc) ∈ (save_loop_tick sm st env fs).2.1) :
    (pth, FileContent.json ct g jq pc) ∈ fs ∨ ct = "auto" := by
  rcases tick_fs_cases sm st env fs with hf | ⟨st2, coords, sc, hf⟩
  · rw [hf] at h
    exact Or.inl h
  · rw [hf] at h
    rcases capture_phase_fs sm st2 env coords sc fs _ h with h1 | ⟨ft, hsh⟩ | ⟨ft, hsh⟩
    · exact Or.inl h1
    · exfalso
      simp only [Prod.mk.injEq] at hsh
      exact absurd hsh.2 (by simp)
    · right
      simp only [Prod.mk.injEq] at hsh
      obtain ⟨h1, h2⟩ := hsh
      injection h2

/-! Concrete evaluations of the tick used by witnesses and
counterexamples. -/

theorem distance_trigger_eval :
    distance_trigger (some c00) (some c01) 30 = (some c01, true) := by
  have h : (calculate_distance c00 c01) ≥ ((30 : ℚ) : ℝ) := by
    have h2 := calculate_distance_c00_c01_ge_30
    push_cast
    exact h2
  simp only [distance_trigger, get_distance_moved]
  rw [if_pos h]

theorem tick_eval_C2 :
    save_loop_tick smD stC2 envC2 [] =
      (⟨IntervalType.distance, 30, 0, some c01, true, some c01⟩,
        [(imgPath "rgb" "t0", FileContent.image 100)], false) := by
  simp only [save_loop_tick, stC2, envC2, distance_trigger_eval]
  rfl

theorem check_motion_c01_c01 :
    check_motion (some c01) (some c01) = (some c01, false) := by
  norm_num [check_motion, c01, gps_threshold]

theorem tick_eval_C4 :
    save_loop_tick smD stC4 envC2 [] =
      (⟨IntervalType.distance, 30, 0, some c01, true, some c01⟩, [], false) := by
  simp only [save_loop_tick, stC4, envC2, distance_trigger_eval, reduceIte,
    check_motion_c01_c01]
  rfl

theorem tick_eval_T :
    save_loop_tick smD stT envT [] =
      (⟨IntervalType.time, 30, 100, none, false, none⟩,
        [(jsonOf (imgPath "rgb" "t2"), FileContent.json "auto" none 100 0),
          (imgPath "rgb" "t2", FileContent.image 100)], true) := by
  have h30 : (100 : ℚ) - 0 ≥ 30 := by norm_num
  simp only [save_loop_tick, stT, envT, reduceIte, decide_eq_true h30]
  rfl

/-- C2 counterexample: a distance-mode tick whose persist fails (every
metadata write fails), yet the distance baseline `gps.last_position` has
been moved from `c00` to the current fix `c01` — the next tick will not
retry from the old baseline, contradicting the claim that both baselines
are left unchanged when the persist fails. -/
theorem C2_counterexample :
    (save_loop_tick smD stC2 envC2 []).2.2 = false ∧
    stC2.gps_last_position = some c00 ∧
    (save_loop_tick smD stC2 envC2 []).1.gps_last_position = some c01 ∧
    some c01 ≠ (some c00 : Option Coords) := by
  refine ⟨?_, rfl, ?_, ?_⟩
  · rw [tick_eval_C2]
  · rw [tick_eval_C2]
  · simp only [ne_eq, Option.some.injEq, c00, c01, Coords.mk.injEq]
    intro hc
    exact absurd hc.2 (by norm_num)

/-- C2 (amended): the last-capture time is updated (to the tick's wall
clock) exactly when the persist succeeds and is left unchanged otherwise;
but in distance mode the last-capture location is updated at trigger
time: whenever the distance trigger fires it is set to the current fix,
regardless of the persist outcome, and when no baseline is stored the
distance query itself adopts the current fix. -/
theorem C2_theorem (sm : StorageManager) (st : AppState) (env : TickEnv) (fs : FS) :
    ((save_loop_tick sm st env fs).2.2 = false →
      (save_loop_tick sm st env fs).1.last_save_time = st.last_save_time) ∧
    ((save_loop_tick sm st env fs).2.2 = true →
      (save_loop_tick sm st env fs).1.last_save_time = env.current_time) ∧
    (st.has_gps = true → st.interval_type = IntervalType.distance →
      (distance_trigger st.gps_last_position env.coords st.interval_value).2 = true →
      (save_loop_tick sm st env fs).1.gps_last_position = env.coords) ∧
    (st.has_gps = true → st.interval_type = IntervalType.distance →
      st.gps_last_position = none →
      (save_loop_tick sm st env fs).1.gps_last_position = env.coords) := by
  refine ⟨(tick_save_time sm st env fs).1, (tick_save_time sm st env fs).2, ?_, ?_⟩
  · intro hg hd hf
    rw [tick_glp_dist sm st env fs hg hd]
    exact distance_trigger_fired _ _ _ hf
  · intro hg hd hn
    rw [tick_glp_dist sm st env fs hg hd, hn]
    exact distance_trigger_none _ _

/-- C2 witness: on the failing tick of the counterexample scenario the
time baseline is indeed unchanged while the location baseline was moved
to the current fix; on a successful time-mode tick the time baseline is
set to the tick's wall clock; with no stored distance baseline the
location baseline adopts the current fix. -/
theorem C2_witness :
    (save_loop_tick smD stC2 envC2 []).1.last_save_time = stC2.last_save_time ∧
    (save_loop_tick smD stC2 envC2 []).1.gps_last_position = envC2.coords ∧
    (save_loop_tick smD stT envT []).1.last_save_time = envT.current_time ∧
    (save_loop_tick smD stC2N envC2 []).1.gps_last_position = envC2.coords :=
  ⟨(C2_theorem smD stC2 envC2 []).1 (by rw [tick_eval_C2]),
    (C2_theorem smD stC2 envC2 []).2.2.1 rfl rfl
      (by simp only [stC2, envC2]; rw [distance_trigger_eval]),
    (C2_theorem smD stT envT []).2.1 (by rw [tick_eval_T]),
    (C2_theorem smD stC2N envC2 []).2.2.2 rfl rfl rfl⟩

/-- C4 counterexample: a distance-mode tick where the motion filter
reports stationary, so the tick is skipped (nothing saved, disk
unchanged), yet a trigger-evaluation side effect persists: the distance
trigger had already fired and moved `gps.last_position` from `c00` to the
current fix `c01` before the motion check ran. -/
theorem C4_counterexample :
    (check_motion (some c01) (some c01)).2 = false ∧
    (save_loop_tick smD stC4 envC2 []).2.2 = false ∧
    stC4.gps_last_position = some c00 ∧
    (save_loop_tick smD stC4 envC2 []).1.gps_last_position = some c01 ∧
    some c01 ≠ (some c00 : Option Coords) := by
  refine ⟨?_, ?_, rfl, ?_, ?_⟩
  · rw [check_motion_c01_c01]
  · rw [tick_eval_C4]
  · rw [tick_eval_C4]
  · simp only [ne_eq, Option.some.injEq, c00, c01, Coords.mk.injEq]
    intro hc
    exact absurd hc.2 (by norm_num)

/-- C4 (amended): on a stationary tick (both fixes present, both axis
deltas within the threshold) no capture is persisted, the disk state is
untouched, and neither the last-capture time nor the motion baseline is
mutated; however, in distance mode the last-capture location has already
been updated by the trigger evaluation that ran before the motion check
(it holds whatever `distance_trigger` left there), while in time mode it
is unchanged. -/
theorem C4_theorem (sm : StorageManager) (st : AppState) (env : TickEnv) (fs : FS)
    (pc c : Coords) (hg : st.has_gps = true) (hc : env.coords = some c)
    (hl : st.last_gps_coords = some pc)
    (h1 : |c.latitude - pc.latitude| ≤ gps_threshold)
    (h2 : |c.longitude - pc.longitude| ≤ gps_threshold) :
    (save_loop_tick sm st env fs).2.2 = false ∧
    (save_loop_tick sm st env fs).2.1 = fs ∧
    (save_loop_tick sm st env fs).1.last_save_time = st.last_save_time ∧
    (save_loop_tick sm st env fs).1.last_gps_coords = st.last_gps_coords ∧
    (st.interval_type = IntervalType.time →
      (save_loop_tick sm st env fs).1.gps_last_position = st.gps_last_position) ∧
    (st.interval_type = IntervalType.distance →
      (save_loop_tick sm st env fs).1.gps_last_position =
        (distance_trigger st.gps_last_position env.coords st.interval_value).1) := by
  have h := tick_stationary sm st env fs pc c hg hc hl h1 h2
  exact ⟨h.1, h.2.1, h.2.2.1, h.2.2.2,
    fun hd => tick_glp_time sm st env fs hd,
    fun hd => tick_glp_dist sm st env fs hg hd⟩

/-- C4 witness: a stationary time-mode tick saves nothing, leaves the
disk untouched and leaves all three baselines unchanged. -/
theorem C4_witness :
    (save_loop_tick smD stC4W envC2 []).2.2 = false ∧
    (save_loop_tick smD stC4W envC2 []).2.1 = [] ∧
    (save_loop_tick smD stC4W envC2 []).1.last_save_time = stC4W.last_save_time ∧
    (save_loop_tick smD stC4W envC2 []).1.last_gps_coords = stC4W.last_gps_coords ∧
    (save_loop_tick smD stC4W envC2 []).1.gps_last_position = stC4W.gps_last_position :=
  have h := C4_theorem smD stC4W envC2 [] c01 c01 rfl rfl rfl
    (by norm_num [c01, gps_threshold]) (by norm_num [c01, gps_threshold])
  ⟨h.1, h.2.1, h.2.2.1, h.2.2.2.1, h.2.2.2.2.1 rfl⟩

/-- C8: a manual capture while running leaves the whole policy state
(including both automatic baselines) unchanged; its disk effect does not
depend on the policy state (only on GPS availability); every metadata
record it writes is tagged `"manual"`; it persists unconditionally — with
reliable metadata writes every populated stream ends up on disk as an
image/metadata pair, with no distance/time/motion gating consulted — and
every metadata record written by the automatic loop's tick is tagged
`"auto"`. -/
theorem C8_theorem (sm : StorageManager) (st : AppState) (env : ManualEnv) (fs : FS) :
    (manual_capture sm st true env fs).1 = st ∧
    (∀ st' : AppState, st'.has_gps = st.has_gps →
      (manual_capture sm st' true env fs).2 = (manual_capture sm st true env fs).2) ∧
    (∀ (pth : SPath) (ct : String) (g : Option Coords) (jq pc : ℤ),
      (pth, FileContent.json ct g jq pc) ∈ (manual_capture sm st true env fs).2 →
      (pth, FileContent.json ct g jq pc) ∈ fs ∨ ct = "manual") ∧
    ((∀ q, env.metaFails q = false) →
      ∀ (ft : String) (f : Frame), (ft, some f) ∈ env.frames →
      fsExists (manual_capture sm st true env fs).2 (imgPath ft env.ts) = true ∧
      fsExists (manual_capture sm st true env fs).2 (jsonOf (imgPath ft env.ts)) = true) ∧
    (∀ (env' : TickEnv) (pth : SPath) (ct : String) (g : Option Coords) (jq pc : ℤ),
      (pth, FileContent.json ct g jq pc) ∈ (save_loop_tick sm st env' fs).2.1 →
      (pth, FileContent.json ct g jq pc) ∈ fs ∨ ct = "auto") := by
  refine ⟨rfl, ?_, ?_, ?_, ?_⟩
  · intro st' h
    simp only [manual_capture, reduceIte, h]
  · intro pth ct g jq pc h
    simp only [manual_capture, reduceIte] at h
    rcases sfwm_go_provenance sm env.metaFails
      ⟨if st.has_gps = true then env.coords else none, "manual"⟩ env.ts env.frames fs [] _ h
      with h1 | ⟨ft, hsh⟩ | ⟨ft, hsh⟩
    · exact Or.inl h1
    · exfalso
      simp only [Prod.mk.injEq] at hsh
      exact absurd hsh.2 (by simp)
    · right
      simp only [Prod.mk.injEq] at hsh
      obtain ⟨h1, h2⟩ := hsh
      injection h2
  · intro hmf ft f hin
    simp only [manual_capture, reduceIte]
    exact sfwm_go_no_fail_writes sm env.metaFails
      ⟨if st.has_gps = true then env.coords else none, "manual"⟩ env.ts hmf env.frames fs []
      ft f hin
  · intro env' pth ct g jq pc h
    exact tick_json_provenance sm st env' fs pth ct g jq pc h

/-- C8 witness: a concrete manual capture leaves the state unchanged,
its disk effect agrees across different policy states, its written
metadata record is tagged `"manual"`, both files of the populated `rgb`
stream exist, and a concrete automatic tick's metadata record is tagged
`"auto"`. -/
theorem C8_witness :
    (manual_capture smD stT true envMan []).1 = stT ∧
    (manual_capture smD stMan2 true envMan []).2 = (manual_capture smD stT true envMan []).2 ∧
    ((jsonOf (imgPath "rgb" "t1"), FileContent.json "manual" none 100 0) ∈ ([] : FS) ∨
      "manual" = "manual") ∧
    (fsExists (manual_capture smD stT true envMan []).2 (imgPath "rgb" "t1") = true ∧
      fsExists (manual_capture smD stT true envMan []).2 (jsonOf (imgPath "rgb" "t1")) = true) ∧
    ((jsonOf (imgPath "rgb" "t2"), FileContent.json "auto" none 100 0) ∈ ([] : FS) ∨
      "auto" = "auto") :=
  ⟨(C8_theorem smD stT envMan []).1,
    (C8_theorem smD stT envMan []).2.1 stMan2 rfl,
    (C8_theorem smD stT envMan []).2.2.1 (jsonOf (imgPath "rgb" "t1")) "manual" none 100 0
      (by decide),
    (C8_theorem smD stT envMan []).2.2.2.1 (fun q => rfl) "rgb" () (by decide),
    (C8_theorem smD stT envMan []).2.2.2.2 envT (jsonOf (imgPath "rgb" "t2")) "auto" none
      100 0 (by rw [tick_eval_T]; exact List.Mem.head _)⟩

/-- C5 witness: a stationary pair keeps the baseline `c00`; a pair that
moved one degree east adopts the current fix. -/
theorem C5_witness :
    (check_motion (some c00) (some ⟨1 / 20000, 1 / 20000⟩)).1 = some c00 ∧
    (check_motion (some c00) (some c01)).1 = some c01 :=
  ⟨(C5_theorem c00 ⟨1 / 20000, 1 / 20000⟩).1
      (by constructor <;> · rw [abs_le]; constructor <;> norm_num [c00, gps_threshold]),
    (C5_theorem c00 c01).2
      (by norm_num [check_motion, c00, c01, gps_threshold])⟩

end OakLogger
